import Mathlib

/-!
Verification of the fetch-dispatch-and-ingestion pipeline of the
scrollfeed-services repository.

The definitions below are a shallow embedding of the Go sources:

* Article, FetchRequest, FetchResult — news-fetcher-service/model/article.go
* replaceOneUpsert, storeArticles    — news-fetcher-service/fetcher/fetcher.go
  (storeArticles: one ReplaceOne-with-upsert per article, filter on url,
   storedCount = UpsertedCount + ModifiedCount)
* fetchPage, aggregatePages, capArticles, fetchRegionNews
                                     — news-fetcher-service/fetcher/fetcher.go
* handleFetchRequest, AckAction      — news-fetcher-service/worker/worker.go
* the queue delivery state machine   — NATS JetStream consumer semantics,
  parameters from the ConsumerConfig in worker.go
* refreshViralTrace, deduplicateStories, refreshMemesTrace
                                     — viral service main.go / memes service
* fetchNewsHandler, triggerRefreshHandler — news-service handler / viral service

Time values are modelled as natural numbers; upstream HTTP page fetches are
modelled as a function from page number to Option (List Article), where none
stands for any page-level failure (non-200 status, network or decode error).
-/

namespace Scrollfeed

/-- Normalized article record (news-fetcher-service/model/article.go). The
nested source struct is flattened to its single field. -/
structure Article where
  title : String
  description : String
  url : String
  image : String
  sourceName : String
  publishedAt : Nat
  topic : String
  fetchedAt : Nat
deriving DecidableEq, Repr, Inhabited

/-- Fetch task (news-fetcher-service/model/article.go). -/
structure FetchRequest where
  region : String
  maxPages : Nat
  priority : String
  requestID : String
deriving DecidableEq, Repr, Inhabited

/-- Fetch outcome notification (news-fetcher-service/model/article.go). -/
structure FetchResult where
  region : String
  articleCount : Nat
  success : Bool
  error : String
  fetchedAt : Nat
  requestID : String
deriving DecidableEq, Repr, Inhabited

/-- One ReplaceOne-with-upsert operation of the bulk write in storeArticles
(fetcher.go): filter is the article url; if a document matches, it is
replaced in place, otherwise the document is inserted. Returns the new
store, whether a row was inserted (counted in UpsertedCount) and whether an
existing row actually changed (counted in ModifiedCount: MongoDB counts a
replacement only when the replacement differs from the stored document). -/
def replaceOneUpsert : List Article → Article → List Article × Bool × Bool
  | [], a => ([a], true, false)
  | x :: xs, a =>
    if x.url = a.url then
      (a :: xs, false, !(decide (x = a)))
    else
      match replaceOneUpsert xs a with
      | (s, u, m) => (x :: s, u, m)

/-- One step of the bulk write loop: apply the upsert for one article and
add its flags to the running UpsertedCount and ModifiedCount. -/
def storeStep (acc : List Article × Nat × Nat) (a : Article) :
    List Article × Nat × Nat :=
  match replaceOneUpsert acc.1 a with
  | (s, u, m) =>
    (s, acc.2.1 + (if u then 1 else 0), acc.2.2 + (if m then 1 else 0))

/-- Bulk upsert of storeArticles (fetcher.go lines 176-212): one
replaceOneUpsert per article; returns the new store together with the total
UpsertedCount and ModifiedCount. The reported stored count is their sum. -/
def storeArticles (articles : List Article) (store : List Article) :
    List Article × Nat × Nat :=
  articles.foldl storeStep (store, 0, 0)

/-- Number of store rows whose natural key (url) equals u. -/
def countURL (store : List Article) (u : String) : Nat :=
  (store.filter (fun x => decide (x.url = u))).length

/-- Stamping done by fetchPage (fetcher.go lines 166-171): every decoded
article gets Topic := region and FetchedAt := the fetch time of the page,
overwriting whatever the upstream response carried. -/
def stampArticle (region : String) (now : Nat) (a : Article) : Article :=
  { a with topic := region, fetchedAt := now }

/-- One page fetch (fetcher.go fetchPage): the upstream call either fails
(none: request error, non-200 status or decode error) or yields the decoded
article list, which is then stamped with the region and the fetch time. -/
def fetchPage (upstream : Nat → Option (List Article)) (region : String)
    (now : Nat) (page : Nat) : Option (List Article) :=
  (upstream page).map (List.map (stampArticle region now))

/-- The page loop of FetchRegionNews (fetcher.go lines 95-116): pages 1..n
are fetched in order; a failed page is skipped and processing continues;
items of successful pages are appended in order. pageTime p is the clock
value at which page p is fetched. -/
def aggregatePages (upstream : Nat → Option (List Article)) (region : String)
    (pageTime : Nat → Nat) (maxPages : Nat) : List Article :=
  (List.range maxPages).foldl
    (fun acc i =>
      match fetchPage upstream region (pageTime (i + 1)) (i + 1) with
      | none => acc
      | some arts => acc ++ arts)
    []

/-- The item cap of FetchRegionNews (fetcher.go lines 123-126): more than 33
aggregated articles are truncated to the first 33. -/
def capArticles (l : List Article) : List Article :=
  if l.length > 33 then l.take 33 else l

/-- FetchRegionNews (fetcher.go lines 71-140) as a function of the upstream
responses, the page clock, the wall clock at entry, the request and the
current store. The Bool component records whether the call returned a Go
error (true exactly when zero articles were aggregated; the store write is
modelled as succeeding). -/
def fetchRegionNews (upstream : Nat → Option (List Article))
    (pageTime : Nat → Nat) (now : Nat) (req : FetchRequest)
    (store : List Article) : FetchResult × List Article × Bool :=
  let base : FetchResult :=
    { region := req.region, articleCount := 0, success := false,
      error := "", fetchedAt := now, requestID := req.requestID }
  let all := aggregatePages upstream req.region pageTime req.maxPages
  if all.isEmpty then
    ({ base with error := "No articles fetched" }, store, true)
  else
    let capped := capArticles all
    match storeArticles capped store with
    | (store2, up, modi) =>
      ({ base with success := true, articleCount := up + modi }, store2, false)

/-- Queue acknowledgement outcome of one delivery. -/
inductive AckAction
  | ack
  | nak
deriving DecidableEq, Repr

/-- handleFetchRequest (worker.go lines 320-345): process the decoded
request; on a Go error from FetchRegionNews the delivery is negatively
acknowledged, otherwise it is acknowledged. In both cases the FetchResult
is published. -/
def handleFetchRequest (upstream : Nat → Option (List Article))
    (pageTime : Nat → Nat) (now : Nat) (req : FetchRequest)
    (store : List Article) : FetchResult × List Article × AckAction :=
  match fetchRegionNews upstream pageTime now req store with
  | (res, st, isErr) => (res, st, if isErr then AckAction.nak else AckAction.ack)

theorem countURL_cons (x : Article) (xs : List Article) (u : String) :
    countURL (x :: xs) u = (if x.url = u then 1 else 0) + countURL xs u := by
  by_cases h : x.url = u <;>
    simp [countURL, List.filter_cons, h, Nat.add_comm]

theorem replaceOneUpsert_cons_eq (x : Article) (xs : List Article) (a : Article)
    (h : x.url = a.url) :
    replaceOneUpsert (x :: xs) a = (a :: xs, false, !(decide (x = a))) := by
  simp [replaceOneUpsert, h]

theorem replaceOneUpsert_cons_ne (x : Article) (xs : List Article) (a : Article)
    (h : ¬ x.url = a.url) :
    replaceOneUpsert (x :: xs) a
      = (x :: (replaceOneUpsert xs a).1,
         (replaceOneUpsert xs a).2.1, (replaceOneUpsert xs a).2.2) := by
  rcases h2 : replaceOneUpsert xs a with ⟨s2, u2, m2⟩
  simp [replaceOneUpsert, h, h2]

theorem storeArticles_single (a : Article) (s : List Article) :
    (storeArticles [a] s).1 = (replaceOneUpsert s a).1 := by
  rcases h : replaceOneUpsert s a with ⟨s2, u2, m2⟩
  simp [storeArticles, storeStep, h]

theorem replaceOneUpsert_filter (u : String) (r : Article) (hr : r.url = u) :
    ∀ s : List Article, countURL s u ≤ 1 →
      (replaceOneUpsert s r).1.filter (fun x => decide (x.url = u)) = [r] := by
  intro s
  induction s with
  | nil =>
    intro _
    simp [replaceOneUpsert, hr]
  | cons x xs ih =>
    intro hc
    by_cases hx : x.url = r.url
    · have hxu : x.url = u := hx.trans hr
      have hcc := countURL_cons x xs u
      rw [if_pos hxu] at hcc
      have hxs : countURL xs u = 0 := by omega
      have hfilter : xs.filter (fun y => decide (y.url = u)) = [] :=
        List.length_eq_zero.mp hxs
      rw [replaceOneUpsert_cons_eq x xs r hx]
      simp [List.filter_cons, hr, hfilter]
    · have hxu : ¬ x.url = u := fun h => hx (h.trans hr.symm)
      have hcc := countURL_cons x xs u
      rw [if_neg hxu] at hcc
      have hcx : countURL xs u ≤ 1 := by omega
      rw [replaceOneUpsert_cons_ne x xs r hx]
      simp [List.filter_cons, hxu, ih hcx]

/-- C1: upsert by natural key is idempotent and deduplicating. Starting from
any store satisfying the unique-url invariant, after upserting a record r1
and then a record r2 with the same url (and arbitrary other fields), the
store contains exactly one record with that url, and that record is exactly
r2 (last write wins, no duplicate rows). -/
theorem upsert_by_url_dedup_last_write_wins (s : List Article) (r1 r2 : Article)
    (hurl : r2.url = r1.url) (hs : countURL s r1.url ≤ 1) :
    countURL (storeArticles [r2] (storeArticles [r1] s).1).1 r1.url = 1 ∧
      (storeArticles [r2] (storeArticles [r1] s).1).1.filter
        (fun x => decide (x.url = r1.url)) = [r2] := by
  have h1 := replaceOneUpsert_filter r1.url r1 rfl s hs
  have hc1 : countURL (replaceOneUpsert s r1).1 r1.url ≤ 1 := by
    unfold countURL
    rw [h1]
    simp
  have h2 := replaceOneUpsert_filter r1.url r2 hurl (replaceOneUpsert s r1).1 hc1
  refine ⟨?_, ?_⟩
  · unfold countURL
    rw [storeArticles_single, storeArticles_single, h2]
    simp
  · rw [storeArticles_single, storeArticles_single]
    exact h2

/-- Concrete article used in witnesses: natural key https x 1, title A. -/
def artKeyA : Article :=
  { title := "A", description := "d", url := "https://x/1", image := "",
    sourceName := "s", publishedAt := 0, topic := "us", fetchedAt := 0 }

/-- Same natural key as artKeyA but different display fields and fetch time. -/
def artKeyB : Article :=
  { artKeyA with title := "B", fetchedAt := 5 }

/-- Witness for C1 at a concrete input: inserting title A then title B under
the same url leaves exactly one row, carrying title B. -/
theorem upsert_by_url_dedup_last_write_wins_witness :
    countURL (storeArticles [artKeyB] (storeArticles [artKeyA] []).1).1 artKeyA.url = 1 ∧
      (storeArticles [artKeyB] (storeArticles [artKeyA] []).1).1.filter
        (fun x => decide (x.url = artKeyA.url)) = [artKeyB] :=
  upsert_by_url_dedup_last_write_wins [] artKeyA artKeyB (by decide) (by decide)

theorem aggregate_foldl_eq (g : Nat → Option (List Article)) :
    ∀ (xs : List Nat) (init : List Article),
      xs.foldl (fun acc i =>
          match g i with
          | none => acc
          | some arts => acc ++ arts) init
        = init ++ (xs.filterMap g).flatten := by
  intro xs
  induction xs with
  | nil =>
    intro init
    simp
  | cons x xs ih =>
    intro init
    cases hgx : g x with
    | none => simp [List.foldl_cons, List.filterMap_cons, hgx, ih]
    | some arts => simp [List.foldl_cons, List.filterMap_cons, hgx, ih]

theorem aggregatePages_eq (upstream : Nat → Option (List Article))
    (region : String) (pageTime : Nat → Nat) (n : Nat) :
    aggregatePages upstream region pageTime n
      = ((List.range n).filterMap
          (fun i => fetchPage upstream region (pageTime (i + 1)) (i + 1))).flatten := by
  unfold aggregatePages
  simpa using
    aggregate_foldl_eq
      (fun i => fetchPage upstream region (pageTime (i + 1)) (i + 1))
      (List.range n) []

theorem fetchRegionNews_of_empty (upstream : Nat → Option (List Article))
    (pageTime : Nat → Nat) (now : Nat) (req : FetchRequest) (store : List Article)
    (h : aggregatePages upstream req.region pageTime req.maxPages = []) :
    fetchRegionNews upstream pageTime now req store
      = ({ region := req.region, articleCount := 0, success := false,
           error := "No articles fetched", fetchedAt := now,
           requestID := req.requestID }, store, true) := by
  unfold fetchRegionNews
  simp [h]

theorem fetchRegionNews_of_nonempty (upstream : Nat → Option (List Article))
    (pageTime : Nat → Nat) (now : Nat) (req : FetchRequest) (store : List Article)
    (h : ¬ aggregatePages upstream req.region pageTime req.maxPages = []) :
    fetchRegionNews upstream pageTime now req store
      = ({ region := req.region,
           articleCount :=
             (storeArticles (capArticles
                 (aggregatePages upstream req.region pageTime req.maxPages)) store).2.1
               + (storeArticles (capArticles
                 (aggregatePages upstream req.region pageTime req.maxPages)) store).2.2,
           success := true, error := "", fetchedAt := now,
           requestID := req.requestID },
         (storeArticles (capArticles
             (aggregatePages upstream req.region pageTime req.maxPages)) store).1,
         false) := by
  unfold fetchRegionNews
  rcases h2 : storeArticles (capArticles
      (aggregatePages upstream req.region pageTime req.maxPages)) store with ⟨s2, u2, m2⟩
  simp [h, h2]

/-- C2: a request whose pages all yield zero items (every page fails or
decodes to an empty list) produces a FetchResult with success false and a
non-empty error, and the delivery is negatively acknowledged. -/
theorem empty_aggregate_fails_and_naks (upstream : Nat → Option (List Article))
    (pageTime : Nat → Nat) (now : Nat) (req : FetchRequest) (store : List Article)
    (h : ∀ p, 1 ≤ p → p ≤ req.maxPages → upstream p = none ∨ upstream p = some []) :
    (handleFetchRequest upstream pageTime now req store).1.success = false ∧
    (handleFetchRequest upstream pageTime now req store).1.error ≠ "" ∧
    (handleFetchRequest upstream pageTime now req store).2.2 = AckAction.nak := by
  have hagg : aggregatePages upstream req.region pageTime req.maxPages = [] := by
    rw [aggregatePages_eq]
    apply List.flatten_eq_nil_iff.mpr
    intro l hl
    rcases List.mem_filterMap.mp hl with ⟨i, hi, hgi⟩
    have hip : i < req.maxPages := List.mem_range.mp hi
    rcases h (i + 1) (Nat.le_add_left 1 i) (by omega) with hup | hup
    · rw [fetchPage, hup] at hgi
      exact absurd hgi (by simp)
    · rw [fetchPage, hup] at hgi
      simpa using hgi.symm
  unfold handleFetchRequest
  rw [fetchRegionNews_of_empty upstream pageTime now req store hagg]
  refine ⟨rfl, ?_, rfl⟩
  simp

/-- Witness for C2: an upstream where every page fails yields success false,
a populated error and a Nak. -/
theorem empty_aggregate_fails_and_naks_witness :
    (handleFetchRequest (fun _ => none) (fun _ => 0) 0
        { region := "us", maxPages := 2, priority := "normal", requestID := "r1" }
        []).1.success = false ∧
    (handleFetchRequest (fun _ => none) (fun _ => 0) 0
        { region := "us", maxPages := 2, priority := "normal", requestID := "r1" }
        []).1.error ≠ "" ∧
    (handleFetchRequest (fun _ => none) (fun _ => 0) 0
        { region := "us", maxPages := 2, priority := "normal", requestID := "r1" }
        []).2.2 = AckAction.nak :=
  empty_aggregate_fails_and_naks (fun _ => none) (fun _ => 0) 0
    { region := "us", maxPages := 2, priority := "normal", requestID := "r1" }
    [] (fun _ _ _ => Or.inl rfl)

/-- C3: a delivery is acknowledged exactly when at least one item was
aggregated (independently of individual page failures), and negatively
acknowledged exactly when the aggregate is empty. -/
theorem ack_iff_nonzero_aggregate (upstream : Nat → Option (List Article))
    (pageTime : Nat → Nat) (now : Nat) (req : FetchRequest) (store : List Article) :
    ((handleFetchRequest upstream pageTime now req store).2.2 = AckAction.ack
        ↔ aggregatePages upstream req.region pageTime req.maxPages ≠ []) ∧
    ((handleFetchRequest upstream pageTime now req store).2.2 = AckAction.nak
        ↔ aggregatePages upstream req.region pageTime req.maxPages = []) := by
  by_cases h : aggregatePages upstream req.region pageTime req.maxPages = []
  · unfold handleFetchRequest
    rw [fetchRegionNews_of_empty upstream pageTime now req store h]
    simp [h]
  · unfold handleFetchRequest
    rw [fetchRegionNews_of_nonempty upstream pageTime now req store h]
    simp [h]

/-- Witness for C3: one successful page with one article is acknowledged. -/
theorem ack_iff_nonzero_aggregate_witness :
    (handleFetchRequest (fun _ => some [artKeyA]) (fun _ => 0) 0
        { region := "us", maxPages := 1, priority := "normal", requestID := "r2" }
        []).2.2 = AckAction.ack :=
  (ack_iff_nonzero_aggregate (fun _ => some [artKeyA]) (fun _ => 0) 0
    { region := "us", maxPages := 1, priority := "normal", requestID := "r2" }
    []).1.mpr (by decide)

/-- C4: page-failure tolerance. The aggregated list is exactly the
concatenation of the item lists of the successful pages, taken in page order
1..maxPages (failed pages are skipped), and the request is marked successful
precisely when the aggregate is non-empty. -/
theorem page_failure_tolerance (upstream : Nat → Option (List Article))
    (pageTime : Nat → Nat) (now : Nat) (req : FetchRequest) (store : List Article) :
    aggregatePages upstream req.region pageTime req.maxPages
      = ((List.range req.maxPages).filterMap
          (fun i => fetchPage upstream req.region (pageTime (i + 1)) (i + 1))).flatten ∧
    (fetchRegionNews upstream pageTime now req store).1.success
      = !(aggregatePages upstream req.region pageTime req.maxPages).isEmpty := by
  refine ⟨aggregatePages_eq upstream req.region pageTime req.maxPages, ?_⟩
  by_cases h : aggregatePages upstream req.region pageTime req.maxPages = []
  · rw [fetchRegionNews_of_empty upstream pageTime now req store h]
    simp [h]
  · rw [fetchRegionNews_of_nonempty upstream pageTime now req store h]
    simp [h]

/-- C5: item cap enforcement. The capped list is always the first 33
aggregated items (so an aggregate longer than 33 is cut to exactly 33), an
aggregate of 33 or fewer items is passed unchanged, and the store written by
fetchRegionNews is exactly the bulk upsert of the capped aggregate. -/
theorem item_cap_enforcement (upstream : Nat → Option (List Article))
    (pageTime : Nat → Nat) (now : Nat) (req : FetchRequest) (store : List Article)
    (l : List Article) :
    capArticles l = l.take 33 ∧
    (l.length ≤ 33 → capArticles l = l) ∧
    (l.length > 33 → (capArticles l).length = 33) ∧
    (fetchRegionNews upstream pageTime now req store).2.1
      = (storeArticles (capArticles
          (aggregatePages upstream req.region pageTime req.maxPages)) store).1 := by
  refine ⟨?_, ?_, ?_, ?_⟩
  · unfold capArticles
    by_cases h : l.length > 33
    · rw [if_pos h]
    · rw [if_neg h]
      exact (List.take_of_length_le (by omega)).symm
  · intro h
    unfold capArticles
    rw [if_neg (by omega)]
  · intro h
    unfold capArticles
    rw [if_pos h]
    simp [List.length_take]
    omega
  · by_cases h : aggregatePages upstream req.region pageTime req.maxPages = []
    · rw [fetchRegionNews_of_empty upstream pageTime now req store h]
      simp [h, capArticles, storeArticles]
    · rw [fetchRegionNews_of_nonempty upstream pageTime now req store h]

/-- Witness for C5: a 34-item aggregate is cut to its first 33 items, and a
1-item list passes unchanged. -/
theorem item_cap_enforcement_witness :
    (List.replicate 34 artKeyA).length > 33 ∧
    (capArticles (List.replicate 34 artKeyA)).length = 33 ∧
    capArticles [artKeyA] = [artKeyA] := by
  refine ⟨by decide, ?_, ?_⟩
  · exact (item_cap_enforcement (fun _ => none) (fun _ => 0) 0
      { region := "us", maxPages := 0, priority := "normal", requestID := "r" }
      [] (List.replicate 34 artKeyA)).2.2.1 (by decide)
  · exact (item_cap_enforcement (fun _ => none) (fun _ => 0) 0
      { region := "us", maxPages := 0, priority := "normal", requestID := "r" }
      [] [artKeyA]).2.1 (by decide)

theorem replaceOneUpsert_mem_unchanged (a : Article) :
    ∀ s : List Article, a ∈ s → countURL s a.url ≤ 1 →
      replaceOneUpsert s a = (s, false, false) := by
  intro s
  induction s with
  | nil =>
    intro hmem
    cases hmem
  | cons x xs ih =>
    intro hmem huniq
    by_cases hx : x.url = a.url
    · rcases List.mem_cons.mp hmem with h | h
      · subst h
        rw [replaceOneUpsert_cons_eq a xs a rfl]
        simp
      · exfalso
        have hcc := countURL_cons x xs a.url
        rw [if_pos hx] at hcc
        have hmemf : a ∈ xs.filter (fun y => decide (y.url = a.url)) :=
          List.mem_filter.mpr ⟨h, by simp⟩
        have hpos : 0 < countURL xs a.url :=
          List.length_pos.mpr (List.ne_nil_of_mem hmemf)
        omega
    · rcases List.mem_cons.mp hmem with h | h
      · exact absurd (h ▸ rfl) hx
      · have hcc := countURL_cons x xs a.url
        rw [if_neg hx] at hcc
        have hcx : countURL xs a.url ≤ 1 := by omega
        rw [replaceOneUpsert_cons_ne x xs a hx, ih h hcx]

theorem foldl_storeStep_unchanged (s : List Article)
    (huniq : ∀ u, countURL s u ≤ 1) :
    ∀ l : List Article, (∀ a ∈ l, a ∈ s) → ∀ c1 c2 : Nat,
      l.foldl storeStep (s, c1, c2) = (s, c1, c2) := by
  intro l
  induction l with
  | nil =>
    intro _ c1 c2
    rfl
  | cons a l ih =>
    intro hmem c1 c2
    have h1 := replaceOneUpsert_mem_unchanged a s
      (hmem a (List.mem_cons_self a l)) (huniq a.url)
    have hstep : storeStep (s, c1, c2) a = (s, c1, c2) := by
      simp [storeStep, h1]
    rw [List.foldl_cons, hstep]
    exact ih (fun b hb => hmem b (List.mem_cons_of_mem a hb)) c1 c2

/-- C6: the reported item count is the number of rows actually created or
changed (UpsertedCount + ModifiedCount), not the number fetched. In
particular, re-upserting items that are already stored unchanged reports a
count of zero, strictly smaller than the number fetched; and the count
fetchRegionNews reports is exactly the UpsertedCount + ModifiedCount of the
bulk upsert of the capped aggregate. -/
theorem stored_count_is_rows_changed (s l : List Article)
    (huniq : ∀ u, countURL s u ≤ 1) (hmem : ∀ a ∈ l, a ∈ s) (hne : l ≠ []) :
    (storeArticles l s).2.1 + (storeArticles l s).2.2 = 0 ∧
    (storeArticles l s).2.1 + (storeArticles l s).2.2 < l.length ∧
    ∀ (upstream : Nat → Option (List Article)) (pageTime : Nat → Nat)
      (now : Nat) (req : FetchRequest) (store : List Article),
      (fetchRegionNews upstream pageTime now req store).1.articleCount
        = (storeArticles (capArticles
            (aggregatePages upstream req.region pageTime req.maxPages)) store).2.1
          + (storeArticles (capArticles
            (aggregatePages upstream req.region pageTime req.maxPages)) store).2.2 := by
  have hzero : storeArticles l s = (s, 0, 0) :=
    foldl_storeStep_unchanged s huniq l hmem 0 0
  refine ⟨by simp [hzero], ?_, ?_⟩
  · rw [hzero]
    simpa using List.length_pos.mpr hne
  · intro upstream pageTime now req store
    by_cases h : aggregatePages upstream req.region pageTime req.maxPages = []
    · rw [fetchRegionNews_of_empty upstream pageTime now req store h]
      simp [h, capArticles, storeArticles]
    · rw [fetchRegionNews_of_nonempty upstream pageTime now req store h]

/-- Witness for C6: re-upserting the one already-stored article reports zero
created-or-changed rows, below the one item fetched. -/
theorem stored_count_is_rows_changed_witness :
    (storeArticles [artKeyA] [artKeyA]).2.1
        + (storeArticles [artKeyA] [artKeyA]).2.2 = 0 ∧
    (storeArticles [artKeyA] [artKeyA]).2.1
        + (storeArticles [artKeyA] [artKeyA]).2.2 < [artKeyA].length :=
  ⟨(stored_count_is_rows_changed [artKeyA] [artKeyA]
      (fun u => by
        simpa [countURL] using
          List.length_filter_le (fun x => decide (x.url = u)) [artKeyA])
      (fun a ha => ha) (by simp)).1,
   (stored_count_is_rows_changed [artKeyA] [artKeyA]
      (fun u => by
        simpa [countURL] using
          List.length_filter_le (fun x => decide (x.url = u)) [artKeyA])
      (fun a ha => ha) (by simp)).2.1⟩

theorem mem_aggregate_stamped (upstream : Nat → Option (List Article))
    (region : String) (pageTime : Nat → Nat) (n : Nat) (a : Article)
    (ha : a ∈ aggregatePages upstream region pageTime n) :
    a.topic = region ∧ ∃ p, 1 ≤ p ∧ p ≤ n ∧ a.fetchedAt = pageTime p := by
  rw [aggregatePages_eq] at ha
  rcases List.mem_flatten.mp ha with ⟨l, hl, hal⟩
  rcases List.mem_filterMap.mp hl with ⟨i, hi, hgi⟩
  have hin : i < n := List.mem_range.mp hi
  unfold fetchPage at hgi
  rcases hup : upstream (i + 1) with _ | raw
  · rw [hup] at hgi
    simp at hgi
  · rw [hup] at hgi
    simp only [Option.map_some'] at hgi
    rw [← Option.some_inj.mp hgi] at hal
    rcases List.mem_map.mp hal with ⟨orig, _, hstamp⟩
    refine ⟨by rw [← hstamp]; rfl, i + 1, by omega, by omega,
      by rw [← hstamp]; rfl⟩

/-- C10: scope stamping invariant. Every article aggregated by the page loop
has its Topic field equal to the request region and its FetchedAt field
equal to the clock value of the page it came from, whatever the upstream
response carried in those fields; hence every record passed to the store
upsert carries the request region as its topic. -/
theorem scope_stamping (upstream : Nat → Option (List Article))
    (region : String) (pageTime : Nat → Nat) (n : Nat) (a : Article)
    (ha : a ∈ aggregatePages upstream region pageTime n) :
    a.topic = region ∧
    (∃ p, 1 ≤ p ∧ p ≤ n ∧ a.fetchedAt = pageTime p) ∧
    ∀ b ∈ capArticles (aggregatePages upstream region pageTime n),
      b.topic = region := by
  refine ⟨(mem_aggregate_stamped upstream region pageTime n a ha).1,
    (mem_aggregate_stamped upstream region pageTime n a ha).2, ?_⟩
  intro b hb
  have hb2 : b ∈ aggregatePages upstream region pageTime n := by
    unfold capArticles at hb
    by_cases h : (aggregatePages upstream region pageTime n).length > 33
    · rw [if_pos h] at hb
      exact List.mem_of_mem_take hb
    · rwa [if_neg h] at hb
  exact (mem_aggregate_stamped upstream region pageTime n b hb2).1

/-- Upstream article carrying a foreign topic and fetch time, used to show
that stamping overwrites both. -/
def artUpstream : Article :=
  { title := "t", description := "", url := "https://x/2", image := "",
    sourceName := "s", publishedAt := 3, topic := "fr", fetchedAt := 99 }

/-- Witness for C10: a one-page fetch of an article claiming topic fr and
fetch time 99 yields an aggregated article stamped with region us and the
page clock 7. -/
theorem scope_stamping_witness :
    stampArticle "us" 7 artUpstream
        ∈ aggregatePages (fun _ => some [artUpstream]) "us" (fun _ => 7) 1 ∧
    ((stampArticle "us" 7 artUpstream).topic = "us" ∧
      (∃ p, 1 ≤ p ∧ p ≤ 1 ∧ (stampArticle "us" 7 artUpstream).fetchedAt
          = (fun _ : Nat => 7) p) ∧
      ∀ b ∈ capArticles (aggregatePages (fun _ => some [artUpstream]) "us"
          (fun _ => 7) 1), b.topic = "us") :=
  ⟨by decide,
   scope_stamping (fun _ => some [artUpstream]) "us" (fun _ => 7) 1
     (stampArticle "us" 7 artUpstream) (by decide)⟩

/-- Consumer configuration knobs set by the worker on its durable JetStream
consumer: the acknowledgement wait (visibility timeout, seconds) and the
maximum delivery count. -/
structure ConsumerConfig where
  ackWaitSeconds : Nat
  maxDeliver : Nat
deriving DecidableEq, Repr

/-- The literal values of the ConsumerConfig built in worker.go Start:
AckWait 30 seconds, MaxDeliver 3. -/
def newsFetchConsumerConfig : ConsumerConfig :=
  { ackWaitSeconds := 30, maxDeliver := 3 }

/-- Status of one queued task. -/
inductive TaskStatus
  | pending
  | inflight (deadline : Nat)
  | acked
  | dropped
deriving DecidableEq, Repr

/-- State of one task in the queue: its status, how many times it has been
delivered so far, the current clock in seconds, and the number of
dead-letter records that exist for it. -/
structure QueueState where
  status : TaskStatus
  deliveries : Nat
  clock : Nat
  deadLetters : Nat
deriving DecidableEq, Repr

/-- Events of the queue substrate. -/
inductive QEvent
  | tick
  | deliver
  | ackMsg
  | nakMsg
  | timeoutMsg
  | dropMsg
deriving DecidableEq, Repr

/-- Modelled from the spec: the Task Queue substrate (NATS JetStream) is not
code of this repository; spec section 4.1 describes the delivery behaviour
the repository configures — a pending task may be delivered while under the
maximum delivery count, a delivered-but-unacknowledged task becomes
redeliverable only once the visibility timeout set at delivery has elapsed
(or on an explicit Nak), and a task whose delivery count has reached the
maximum is dropped; no transition creates a dead-letter record. The numeric
parameters come from newsFetchConsumerConfig (worker.go). -/
inductive QStep (cfg : ConsumerConfig) : QEvent → QueueState → QueueState → Prop
  | tick (s : QueueState) :
      QStep cfg QEvent.tick s { s with clock := s.clock + 1 }
  | deliver (s : QueueState) (h : s.status = TaskStatus.pending)
      (hd : s.deliveries < cfg.maxDeliver) :
      QStep cfg QEvent.deliver s
        { s with status := TaskStatus.inflight (s.clock + cfg.ackWaitSeconds),
                 deliveries := s.deliveries + 1 }
  | ackMsg (s : QueueState) (d : Nat) (h : s.status = TaskStatus.inflight d) :
      QStep cfg QEvent.ackMsg s { s with status := TaskStatus.acked }
  | nakMsg (s : QueueState) (d : Nat) (h : s.status = TaskStatus.inflight d) :
      QStep cfg QEvent.nakMsg s { s with status := TaskStatus.pending }
  | timeoutMsg (s : QueueState) (d : Nat) (h : s.status = TaskStatus.inflight d)
      (hc : d ≤ s.clock) :
      QStep cfg QEvent.timeoutMsg s { s with status := TaskStatus.pending }
  | dropMsg (s : QueueState) (h : s.status = TaskStatus.pending)
      (hd : cfg.maxDeliver ≤ s.deliveries) :
      QStep cfg QEvent.dropMsg s { s with status := TaskStatus.dropped }

/-- Reachability along any sequence of queue events. -/
def QReach (cfg : ConsumerConfig) : QueueState → QueueState → Prop :=
  Relation.ReflTransGen (fun a b => ∃ e, QStep cfg e a b)

theorem qstep_deliveries_le (cfg : ConsumerConfig) (e : QEvent)
    (a b : QueueState) (h : QStep cfg e a b)
    (ha : a.deliveries ≤ cfg.maxDeliver) : b.deliveries ≤ cfg.maxDeliver := by
  cases h <;> simp_all
  omega

theorem qstep_deadLetters_eq (cfg : ConsumerConfig) (e : QEvent)
    (a b : QueueState) (h : QStep cfg e a b) :
    b.deadLetters = a.deadLetters := by
  cases h <;> rfl

theorem qreach_invariant (cfg : ConsumerConfig) (a b : QueueState)
    (h : QReach cfg a b) (ha : a.deliveries ≤ cfg.maxDeliver) :
    b.deliveries ≤ cfg.maxDeliver ∧ b.deadLetters = a.deadLetters := by
  induction h with
  | refl => exact ⟨ha, rfl⟩
  | tail _ hbc ih =>
    rcases hbc with ⟨e, hstep⟩
    exact ⟨qstep_deliveries_le cfg e _ _ hstep ih.1,
      (qstep_deadLetters_eq cfg e _ _ hstep).trans ih.2⟩

/-- C7: under the configured consumer (AckWait 30 seconds, MaxDeliver 3) a
task starting undelivered is never delivered more than 3 times along any
run of the queue, no dead-letter record ever exists for it, every delivery
sets a visibility deadline exactly 30 seconds ahead, and a timeout
redelivery can fire only once that deadline has passed. -/
theorem queue_visibility_and_delivery_bound (s s2 : QueueState)
    (h : QReach newsFetchConsumerConfig s s2)
    (h0 : s.deliveries = 0) (hdl : s.deadLetters = 0) :
    s2.deliveries ≤ 3 ∧
    s2.deadLetters = 0 ∧
    (∀ t t2 : QueueState, QStep newsFetchConsumerConfig QEvent.deliver t t2 →
      t2.status = TaskStatus.inflight (t.clock + 30)) ∧
    (∀ (t t2 : QueueState) (d : Nat),
      QStep newsFetchConsumerConfig QEvent.timeoutMsg t t2 →
      t.status = TaskStatus.inflight d → d ≤ t.clock) := by
  have hinv := qreach_invariant newsFetchConsumerConfig s s2 h
    (by rw [h0]; exact Nat.zero_le _)
  refine ⟨hinv.1, by rw [hinv.2, hdl], ?_, ?_⟩
  · intro t t2 hstep
    cases hstep
    rfl
  · intro t t2 d hstep hd
    cases hstep with
    | timeoutMsg _ d2 hstat hc =>
      have h3 := hstat.symm.trans hd
      injection h3 with h4
      omega

/-- Initial state of a freshly enqueued task. -/
def qInit : QueueState :=
  { status := TaskStatus.pending, deliveries := 0, clock := 0, deadLetters := 0 }

/-- Witness for C7 at the initial state with the empty run. -/
theorem queue_visibility_and_delivery_bound_witness :
    qInit.deliveries ≤ 3 ∧
    qInit.deadLetters = 0 ∧
    (∀ t t2 : QueueState, QStep newsFetchConsumerConfig QEvent.deliver t t2 →
      t2.status = TaskStatus.inflight (t.clock + 30)) ∧
    (∀ (t t2 : QueueState) (d : Nat),
      QStep newsFetchConsumerConfig QEvent.timeoutMsg t t2 →
      t.status = TaskStatus.inflight d → d ≤ t.clock) :=
  queue_visibility_and_delivery_bound qInit qInit Relation.ReflTransGen.refl rfl rfl

/-- Viral story record (viral service model). The float engagement metric is
omitted: no claim touches it. -/
structure ViralStory where
  id : String
  title : String
  url : String
  source : String
  category : String
  viralScore : Int
  upvotes : Int
  comments : Int
deriving DecidableEq, Repr, Inhabited

/-- Normalized dedup key of deduplicateStories: lower-cased trimmed title. -/
def dedupKey (title : String) : String :=
  title.trim.toLower

/-- Loop of deduplicateStories (viral service): keep the first story seen
for each normalized title key. -/
def deduplicateStoriesAux (seen : List String) :
    List ViralStory → List ViralStory
  | [] => []
  | s :: rest =>
    if dedupKey s.title ∈ seen then
      deduplicateStoriesAux seen rest
    else
      s :: deduplicateStoriesAux (dedupKey s.title :: seen) rest

/-- deduplicateStories (viral service). -/
def deduplicateStories (stories : List ViralStory) : List ViralStory :=
  deduplicateStoriesAux [] stories

/-- Insertion step of the descending sort by viral score. -/
def insertByScore (s : ViralStory) : List ViralStory → List ViralStory
  | [] => [s]
  | x :: xs =>
    if s.viralScore > x.viralScore then s :: x :: xs
    else x :: insertByScore s xs

/-- Sort by viral score descending (viral service refreshViral). -/
def sortByScore (l : List ViralStory) : List ViralStory :=
  l.foldr insertByScore []

/-- refreshViral (viral service main.go lines 98-161) as the sequence of
collection states a concurrent reader can observe: the fetched stories are
deduplicated, sorted by viral score and truncated to the top 100; if none
remain, the collection is untouched; otherwise the whole collection is
deleted (DeleteMany with empty filter) and only then are the new stories
inserted (InsertMany), so the intermediate observable state is the empty
collection. -/
def refreshViralTrace (fetched : List ViralStory) (store : List ViralStory) :
    List (List ViralStory) :=
  let stories := deduplicateStories fetched
  if stories.isEmpty then
    [store]
  else
    [store, [], (sortByScore stories).take 100]

/-- Meme record (memes service model). -/
structure Meme where
  id : String
  title : String
  imageURL : String
  source : String
  permalink : String
deriving DecidableEq, Repr, Inhabited

/-- Loop of deduplicateMemes (memes service): keep the first meme seen for
each image url. -/
def deduplicateMemesAux (seen : List String) : List Meme → List Meme
  | [] => []
  | m :: rest =>
    if m.imageURL ∈ seen then
      deduplicateMemesAux seen rest
    else
      m :: deduplicateMemesAux (m.imageURL :: seen) rest

/-- deduplicateMemes (memes service). -/
def deduplicateMemes (memes : List Meme) : List Meme :=
  deduplicateMemesAux [] memes

/-- refreshMemes (memes service) as the sequence of collection states a
concurrent reader can observe: if the deduplicated fetch is empty the
collection is untouched, otherwise it is wholly deleted and the new memes
inserted. -/
def refreshMemesTrace (fetched : List Meme) (store : List Meme) :
    List (List Meme) :=
  let memes := deduplicateMemes fetched
  if memes.isEmpty then
    [store]
  else
    [store, [], memes]

/-- Concrete viral story present in the store before a refresh. -/
def storyA : ViralStory :=
  { id := "a", title := "Alpha", url := "https://v/1", source := "reddit",
    category := "news", viralScore := 10, upvotes := 1, comments := 1 }

/-- Concrete viral story fetched by the refresh, with a different key. -/
def storyB : ViralStory :=
  { storyA with id := "b", title := "Beta", url := "https://v/2" }

/-- Counterexample to C8: the viral refresh path explicitly deletes stored
records. Starting from the nonempty store holding storyA, a refresh that
fetched storyB passes through the empty collection (a reader between the
delete and the reinsert sees nothing), and storyA is gone afterwards even
though its key was never refetched. -/
theorem viral_refresh_empties_store :
    refreshViralTrace [storyB] [storyA] = [[storyA], [], [storyB]] ∧
    [] ∈ refreshViralTrace [storyB] [storyA] ∧
    ([storyA] : List ViralStory) ≠ [] := by
  refine ⟨by decide, ?_, by decide⟩
  rw [show refreshViralTrace [storyB] [storyA] = [[storyA], [], [storyB]]
    from by decide]
  simp

theorem foldl_storeStep_fst (l : List Article) :
    ∀ (s : List Article) (c1 c2 : Nat),
      (l.foldl storeStep (s, c1, c2)).1 = (storeArticles l s).1 := by
  induction l with
  | nil =>
    intro s c1 c2
    rfl
  | cons a l ih =>
    intro s c1 c2
    rcases h : replaceOneUpsert s a with ⟨s2, u2, m2⟩
    have hstep : ∀ d1 d2 : Nat, storeStep (s, d1, d2) a
        = (s2, d1 + (if u2 then 1 else 0), d2 + (if m2 then 1 else 0)) := by
      intro d1 d2
      simp [storeStep, h]
    rw [List.foldl_cons, hstep, ih]
    show _ = (List.foldl storeStep (storeStep (s, 0, 0) a) l).1
    rw [hstep, ih]

theorem replaceOneUpsert_preserves_url (r : Article) (u : String) :
    ∀ s : List Article, (∃ b ∈ s, b.url = u) →
      ∃ b ∈ (replaceOneUpsert s r).1, b.url = u := by
  intro s
  induction s with
  | nil =>
    rintro ⟨b, hb, _⟩
    cases hb
  | cons x xs ih =>
    rintro ⟨b, hb, hbu⟩
    by_cases hx : x.url = r.url
    · rw [replaceOneUpsert_cons_eq x xs r hx]
      rcases List.mem_cons.mp hb with hh | hh

      · exact ⟨r, List.mem_cons_self r xs, by rw [← hx, ← hh]; exact hbu⟩
      · exact ⟨b, List.mem_cons_of_mem r hh, hbu⟩
    · rw [replaceOneUpsert_cons_ne x xs r hx]
      rcases List.mem_cons.mp hb with hh | hh
      · exact ⟨x, List.mem_cons_self _ _, by rw [← hh, hbu]⟩
      · rcases ih ⟨b, hh, hbu⟩ with ⟨c, hc, hcu⟩
        exact ⟨c, List.mem_cons_of_mem x hc, hcu⟩

theorem storeArticles_preserves_url (u : String) :
    ∀ (arts s : List Article), (∃ b ∈ s, b.url = u) →
      ∃ b ∈ (storeArticles arts s).1, b.url = u := by
  intro arts
  induction arts with
  | nil =>
    intro s h
    exact h
  | cons a arts ih =>
    intro s h
    rcases h2 : replaceOneUpsert s a with ⟨s2, u2, m2⟩
    have hs2 : ∃ b ∈ s2, b.url = u := by
      have h3 := replaceOneUpsert_preserves_url a u s h
      rwa [h2] at h3
    have hstep : storeStep (s, 0, 0) a
        = (s2, (if u2 then 1 else 0), (if m2 then 1 else 0)) := by
      simp [storeStep, h2]
    have hrest := ih s2 hs2
    show ∃ b ∈ (List.foldl storeStep (storeStep (s, 0, 0) a) arts).1, b.url = u
    rw [hstep, foldl_storeStep_fst]
    exact hrest

/-- C8 amended: the news-fetcher ingestion path is upsert-only — every
natural key present in the store before a bulk upsert is still present
after it — but the viral and memes refresh paths delete the whole
collection before reinserting, so whenever the deduplicated fetch is
non-empty the observable trace passes through an empty collection. -/
theorem fetch_path_upsert_only_but_refresh_deletes
    (fetched : List ViralStory) (store : List ViralStory)
    (h : deduplicateStories fetched ≠ []) :
    [] ∈ refreshViralTrace fetched store ∧
    (∀ fm sm : List Meme, deduplicateMemes fm ≠ [] →
      [] ∈ refreshMemesTrace fm sm) ∧
    (∀ (arts s : List Article) (a : Article), a ∈ s →
      ∃ b ∈ (storeArticles arts s).1, b.url = a.url) := by
  refine ⟨?_, ?_, ?_⟩
  · simp [refreshViralTrace, List.isEmpty_iff, h]
  · intro fm sm hm
    simp [refreshMemesTrace, List.isEmpty_iff, hm]
  · intro arts s a ha
    exact storeArticles_preserves_url a.url arts s ⟨a, ha, rfl⟩

/-- Witness for C8 amended at a concrete refresh. -/
theorem fetch_path_upsert_only_but_refresh_deletes_witness :
    [] ∈ refreshViralTrace [storyB] [storyA] ∧
    (∀ fm sm : List Meme, deduplicateMemes fm ≠ [] →
      [] ∈ refreshMemesTrace fm sm) ∧
    (∀ (arts s : List Article) (a : Article), a ∈ s →
      ∃ b ∈ (storeArticles arts s).1, b.url = a.url) :=
  fetch_path_upsert_only_but_refresh_deletes [storyB] [storyA] (by decide)

/-- HTTP response of the manual FetchNews handler. -/
structure FetchNewsResponse where
  status : Nat
  errorMsg : String
  fetched : Nat
  stored : Nat
deriving DecidableEq, Repr

/-- FetchNews (news-service handler, the manual fetch trigger route): the
region parameter is required (400 when absent); the selected strategy fetch
runs synchronously inside the request; a strategy error is reported in the
same HTTP response as status 500 carrying the fetch error; on success the
articles are stored and the response is 200 with the fetched and stored
counts. The strategy is modelled as a function from region to either an
error message or the fetched articles. -/
def fetchNewsHandler (region : Option String)
    (strategyFetch : String → Except String (List Article))
    (store : List Article) : FetchNewsResponse × List Article :=
  match region with
  | none =>
    ({ status := 400, errorMsg := "region parameter required",
       fetched := 0, stored := 0 }, store)
  | some r =>
    match strategyFetch r with
    | Except.error e =>
      ({ status := 500, errorMsg := "Fetch failed: " ++ e,
         fetched := 0, stored := 0 }, store)
    | Except.ok articles =>
      match storeArticles articles store with
      | (store2, up, modi) =>
        ({ status := 200, errorMsg := "", fetched := articles.length,
           stored := up + modi }, store2)

/-- triggerRefresh (viral service main.go lines 221-231): the refresh runs
in a separate goroutine; the HTTP response is 200 with the message Refresh
triggered regardless of what the refresh later does, so its outcome cannot
influence the response. -/
def triggerRefreshHandler (_outcome : Except String Unit) : Nat × String :=
  (200, "Refresh triggered")

/-- Counterexample to C9: the news-service manual fetch trigger does not
return success on enqueue — it performs the fetch synchronously, and its
HTTP status depends on the fetch outcome: 500 with a populated error when
the strategy fails, 200 when it succeeds. A caller therefore does observe
fetch failure synchronously on this manual trigger route. -/
theorem manual_trigger_not_fire_and_forget :
    (fetchNewsHandler (some "us") (fun _ => Except.error "HTTP 500")
        []).1.status = 500 ∧
    (fetchNewsHandler (some "us") (fun _ => Except.error "HTTP 500")
        []).1.errorMsg ≠ "" ∧
    (fetchNewsHandler (some "us") (fun _ => Except.ok [artKeyA])
        []).1.status = 200 := by
  refine ⟨rfl, by decide, rfl⟩

/-- C9 amended: the viral service manual refresh trigger is fire-and-forget
(always HTTP 200 Refresh triggered, whatever the asynchronous refresh
outcome), but the news-service FetchNews manual trigger performs the fetch
synchronously and reports the fetch outcome in its own response: 500 on
strategy failure, 200 on success. -/
theorem manual_trigger_amended (o : Except String Unit) (r : String)
    (e : String) (arts store : List Article) :
    triggerRefreshHandler o = (200, "Refresh triggered") ∧
    (fetchNewsHandler (some r) (fun _ => Except.error e) store).1.status = 500 ∧
    (fetchNewsHandler (some r) (fun _ => Except.ok arts) store).1.status = 200 := by
  refine ⟨rfl, rfl, ?_⟩
  rcases h : storeArticles arts store with ⟨s2, u2, m2⟩
  simp [fetchNewsHandler, h]

end Scrollfeed
